import Mathlib

/-!
# Verification of the libreeb event-camera RAW decoders

Shallow embedding of the streaming decoders of the `libreeb` repository
(EVT2 in `src/evt2.rs`, EVT2.1 in `src/evt2_1.rs`, EVT3 in `src/evt3.rs`,
header dispatch in `src/lib.rs`, bit extraction in `src/macros.rs`).

Machine integers are modelled as `Nat`.  All raw words enter the decoders
through bit-field extraction, so every field is already reduced below its
width; reductions mod `2^w` are written explicitly at the few points where
the Rust code could wrap (the EVT3 `vect_x` advance on a `u16`).
-/

namespace Libreeb

/-- `extract_bits!(value, _, _, start, len)` from `src/macros.rs`:
mask the `len` bits starting at `start` and shift them down. -/
def extractBits (value start len : Nat) : Nat :=
  (value &&& (((1 <<< len) - 1) <<< start)) >>> start

/-- The logical event union from `src/lib.rs` (`enum Event`).
The decoder sources build `ExternalTrigger` without a `t` value (the EVT2
decoder explicitly discards the word's timestamp field, `timestamp: _`);
the surfaced timestamp of such a trigger is modelled as `0`. -/
inductive Event where
  | CD (x y p t : Nat)
  | ExternalTrigger (id p t : Nat)
  | Unknown
deriving DecidableEq, Repr

/-- The timestamp carried by an emitted event, when it has one
(`Event::timestamp`-style projection used to state chronology). -/
def Event.timeOf : Event → Option Nat
  | .CD _ _ _ t => some t
  | .ExternalTrigger _ _ t => some t
  | .Unknown => none

/-- Chronological list of timestamps of an emitted event list. -/
def timesOf (evs : List Event) : List Nat :=
  evs.filterMap Event.timeOf

/-! ## EVT2 (`src/evt2.rs`)

32-bit little-endian words, discriminant in bits 31..28, decoded through
the `define_raw_evt!` macro: each field annotation `#[start, len]`
becomes `extract_bits!(value, u32, _, start, len)`. -/

/-- Raw EVT2 word, as produced by the `define_raw_evt!` expansion. -/
inductive Evt2 where
  | CDoff (timestamp x y : Nat)
  | CDon (timestamp x y : Nat)
  | EvtTimeHigh (timestamp : Nat)
  | ExtTrigger (timestamp id polarity : Nat)
  | Unknown
deriving DecidableEq, Repr

/-- `impl From<&[u8]> for Evt2`: dispatch on `extract_bits(value, 28, 4)`
and extract each variant's fields with its `#[start, len]` annotations
(note `CDon`'s `x` is annotated `#[21,11]` while `CDoff`'s is `#[11,11]`). -/
def evt2FromWord (v : Nat) : Evt2 :=
  match extractBits v 28 4 with
  | 0x0 => .CDoff (extractBits v 22 6) (extractBits v 11 11) (extractBits v 0 11)
  | 0x1 => .CDon (extractBits v 22 6) (extractBits v 21 11) (extractBits v 0 11)
  | 0x8 => .EvtTimeHigh (extractBits v 0 28)
  | 0xa => .ExtTrigger (extractBits v 22 6) (extractBits v 8 5) (extractBits v 0 1)
  | _ => .Unknown

/-- One word of `Evt2Decoder::decode`: returns the updated `time_high`
state and the emitted event, if any (`None` cases of the Rust `match`
produce no event and the loop continues). -/
def evt2Step (timeHigh : Option Nat) (v : Nat) : Option Nat × Option Event :=
  match evt2FromWord v with
  | .CDon ts x y =>
      (timeHigh, timeHigh.map fun th => .CD x y 1 (th ||| ts))
  | .CDoff ts x y =>
      (timeHigh, timeHigh.map fun th => .CD x y 0 (th ||| ts))
  | .EvtTimeHigh ts => (some (ts <<< 6), none)
  | .ExtTrigger _ id pol => (timeHigh, some (.ExternalTrigger id pol 0))
  | .Unknown => (timeHigh, some .Unknown)

/-- Run `Evt2Decoder::decode` over a list of raw words, collecting the
emitted events in order. -/
def evt2Decode (timeHigh : Option Nat) : List Nat → List Event
  | [] => []
  | v :: vs =>
      let (th', ev) := evt2Step timeHigh v
      ev.toList ++ evt2Decode th' vs

/-- Well-formedness of an EVT2 word stream, the regime the monotonic-time
invariant is stated for: `EVT_TIME_HIGH` fields strictly increase,
between two `EVT_TIME_HIGH` words the `CD` low-timestamp fields are
non-decreasing (tracked by `lastLow`), and the stream carries no
`EXT_TRIGGER` words (the decoder emits those with timestamp 0, see the
C8 analysis).  Reserved words are unconstrained. -/
def evt2WF (timeHighField : Option Nat) (lastLow : Nat) : List Nat → Bool
  | [] => true
  | v :: vs =>
    match evt2FromWord v with
    | .CDon ts _ _ =>
        (timeHighField.isNone || decide (lastLow ≤ ts)) && evt2WF timeHighField ts vs
    | .CDoff ts _ _ =>
        (timeHighField.isNone || decide (lastLow ≤ ts)) && evt2WF timeHighField ts vs
    | .EvtTimeHigh h =>
        (match timeHighField with
          | none => true
          | some h0 => decide (h0 < h)) && evt2WF (some h) 0 vs
    | .ExtTrigger _ _ _ => false
    | .Unknown => evt2WF timeHighField lastLow vs

/-! ## EVT3 (`src/evt3.rs`)

16-bit little-endian words, discriminant in bits 15..12.  The decoder
state is `Evt3DecoderCore`'s fields; `time_base` is always set once the
initial scan loop has found the first `EVT_TIME_HIGH`, so the state used
by the word-processing loops carries it as a plain `Nat`. -/

/-- `MAX_TIMESTAMP_BASE` (evt3.rs): `((1 << 12) - 1) << 12`. -/
def MAX_TIMESTAMP_BASE : Nat := ((1 <<< 12) - 1) <<< 12

/-- `TIME_LOOP_DURATION_US` (evt3.rs): `MAX_TIMESTAMP_BASE + (1 << 12)`. -/
def TIME_LOOP_DURATION_US : Nat := MAX_TIMESTAMP_BASE + (1 <<< 12)

/-- `LOOP_THRESHOLD` (evt3.rs): `10 << 12`. -/
def LOOP_THRESHOLD : Nat := 10 <<< 12

/-- `Evt3Word` accessors (evt3.rs): event type, bits 15..12. -/
def evt3Type (v : Nat) : Nat := (v >>> 12) &&& 0xF

/-- x / y coordinate, bits 10..0. -/
def evt3XY (v : Nat) : Nat := v &&& 0x7FF

/-- polarity, bit 11. -/
def evt3Pol (v : Nat) : Nat := (v >>> 11) &&& 0x1

/-- time value / valid bits, bits 11..0. -/
def evt3Time (v : Nat) : Nat := v &&& 0xFFF

/-- trigger ID, bits 11..8. -/
def evt3TriggerId (v : Nat) : Nat := (v >>> 8) &&& 0xF

/-- trigger polarity, bit 0. -/
def evt3TriggerPol (v : Nat) : Nat := v &&& 0x1

/-- The mutable state of `Evt3DecoderCore` during word processing
(after the scan loop has committed the first time base). -/
structure Evt3State where
  time : Nat
  timeBase : Nat
  timeHighLoopNb : Nat
  polarity : Nat
  x : Nat
  y : Nat
deriving DecidableEq, Repr

/-- The fresh state built by `Evt3DecoderCore::new`, with the time base
the scan loop committed. -/
def evt3Init (base : Nat) : Evt3State :=
  { time := 0, timeBase := base, timeHighLoopNb := 0, polarity := 0, x := 0, y := 0 }

/-- The loop body of `handle_vect!`: iterate `i` over `[i, iEnd)`, emit a
CD event whenever the low bit of `validBits` is set, shifting `validBits`
right each step.  Recursion is on the iteration count `iEnd - i`. -/
def vectLoop (y pol t : Nat) : Nat → Nat → Nat → List Event
  | 0, _, _ => []
  | count + 1, i, validBits =>
      (if validBits &&& 1 = 1 then [Event.CD i y pol t] else []) ++
        vectLoop y pol t count (i + 1) (validBits >>> 1)

/-- `handle_vect!(state, events, valid, vect_size)`: emit the vector's CD
events and advance `state.x` by `vect_size` (a `u16` addition, hence the
reduction mod `2^16`; the Rust range `x..end` is empty when `end < x`). -/
def handleVect (s : Evt3State) (valid vectSize : Nat) : Evt3State × List Event :=
  let «end» := (s.x + vectSize) % 65536
  ({ s with x := «end» }, vectLoop s.y s.polarity s.time («end» - s.x) s.x valid)

/-- One word of the scalar path of `Evt3DecoderCore::next`
(the `else` branch processing `Evt3Word`s). -/
def evt3StepScalar (s : Evt3State) (v : Nat) : Evt3State × List Event :=
  match evt3Type v with
  | 0x0 => ({ s with y := evt3XY v }, [])
  | 0x2 => (s, [.CD (evt3XY v) s.y (evt3Pol v) s.time])
  | 0x3 => ({ s with polarity := evt3Pol v, x := evt3XY v }, [])
  | 0x4 => handleVect s (evt3Time v) 12
  | 0x5 => handleVect s (evt3Time v) 8
  | 0x6 => ({ s with time := s.timeBase + evt3Time v }, [])
  | 0x8 =>
      let timeBase := s.timeBase
      let newTimeHigh0 := (evt3Time v <<< 12) + s.timeHighLoopNb * TIME_LOOP_DURATION_US
      let wrapped := timeBase > newTimeHigh0 ∧
        timeBase - newTimeHigh0 ≥ MAX_TIMESTAMP_BASE - LOOP_THRESHOLD
      if wrapped then
        ({ s with timeBase := newTimeHigh0 + TIME_LOOP_DURATION_US,
                  timeHighLoopNb := s.timeHighLoopNb + 1, time := timeBase }, [])
      else
        ({ s with timeBase := newTimeHigh0, time := timeBase }, [])
  | 0xA => (s, [.ExternalTrigger (evt3TriggerId v) (evt3TriggerPol v) 0])
  | _ => (s, [.Unknown])

/-- One word (one SIMD lane) of the full-buffer path of
`Evt3DecoderCore::next` (the `bytes_to_process == READ_BUFFER_SIZE`
branch): identical per-lane arithmetic, except that the `EXT_TRIGGER`
arm pushes the placeholder `id = 0, p = 0` (the `FIXME` lines). -/
def evt3StepSimd (s : Evt3State) (v : Nat) : Evt3State × List Event :=
  match evt3Type v with
  | 0x0 => ({ s with y := evt3XY v }, [])
  | 0x2 => (s, [.CD (evt3XY v) s.y (evt3Pol v) s.time])
  | 0x3 => ({ s with polarity := evt3Pol v, x := evt3XY v }, [])
  | 0x4 => handleVect s (evt3Time v) 12
  | 0x5 => handleVect s (evt3Time v) 8
  | 0x6 => ({ s with time := s.timeBase + evt3Time v }, [])
  | 0x8 =>
      let timeBase := s.timeBase
      let newTimeHigh0 := (evt3Time v <<< 12) + s.timeHighLoopNb * TIME_LOOP_DURATION_US
      let wrapped := timeBase > newTimeHigh0 ∧
        timeBase - newTimeHigh0 ≥ MAX_TIMESTAMP_BASE - LOOP_THRESHOLD
      if wrapped then
        ({ s with timeBase := newTimeHigh0 + TIME_LOOP_DURATION_US,
                  timeHighLoopNb := s.timeHighLoopNb + 1, time := timeBase }, [])
      else
        ({ s with timeBase := newTimeHigh0, time := timeBase }, [])
  | 0xA => (s, [.ExternalTrigger 0 0 0])
  | _ => (s, [.Unknown])

/-- Process a list of raw EVT3 words with the scalar path, threading the
state and collecting the queued events in order. -/
def evt3Process (s : Evt3State) : List Nat → Evt3State × List Event
  | [] => (s, [])
  | v :: vs =>
      let (s', evs) := evt3StepScalar s v
      let (s'', evs') := evt3Process s' vs
      (s'', evs ++ evs')

/-- Outcome of the time-base scan loop of `Evt3DecoderCore::next`. -/
inductive ScanResult where
  | panic
  | found (base : Nat) (rest : List Nat)
deriving DecidableEq, Repr

/-- The time-base scan loop of `Evt3DecoderCore::next`: repeatedly
`read_exact` two bytes (little-endian word) until an `EVT_TIME_HIGH`
word is found and `time_base = Some(time << 12)` is committed.
`read_exact(..).unwrap()` panics when fewer than two bytes remain,
modelled by `ScanResult.panic`. -/
def evt3ScanBytes : List Nat → ScanResult
  | [] => .panic
  | [_] => .panic
  | b0 :: b1 :: rest =>
      let v := b0 + 256 * b1
      if evt3Type v = 0x8 then .found (evt3Time v <<< 12) rest
      else evt3ScanBytes rest

/-- Group a little-endian byte stream into 16-bit words; a trailing
orphan byte (held in `overflow_byte` until EOF) is discarded. -/
def wordsOfBytes : List Nat → List Nat
  | b0 :: b1 :: rest => (b0 + 256 * b1) :: wordsOfBytes rest
  | _ => []

/-- Little-endian byte encoding of a list of 16-bit words. -/
def bytesOfWords : List Nat → List Nat
  | [] => []
  | v :: vs => v % 256 :: (v / 256) % 256 :: bytesOfWords vs

/-- End-to-end run of the EVT3 decoder on a byte stream (all events the
iterator ever yields, with the final decoder state): scan for the first
time base, then process the remaining words with the scalar path.
`none` models the `unwrap` panic of the scan loop. -/
def evt3Run (bytes : List Nat) : Option (Evt3State × List Event) :=
  match evt3ScanBytes bytes with
  | .panic => none
  | .found base rest => some (evt3Process (evt3Init base) (wordsOfBytes rest))

/-! ## EVT2.1 (`src/evt2_1.rs`)

64-bit little-endian words, discriminant in bits 63..60. -/

/-- `Evt21Word::event_type`: `(data >> 60) as u8`. -/
def evt21Type (v : Nat) : Nat := v >>> 60

/-- `Evt21Word::time_high`: mask bits 59..32 and shift down by 26, which
leaves the 28-bit field already shifted left by 6. -/
def evt21TimeHigh (v : Nat) : Nat :=
  (v &&& (((1 <<< 28) - 1) <<< 32)) >>> 26

/-- `Evt21Word::time_low`: bits 59..54. -/
def evt21TimeLow (v : Nat) : Nat :=
  (v &&& (((1 <<< 6) - 1) <<< 54)) >>> 54

/-- `Evt21Word::x`: bits 53..43. -/
def evt21X (v : Nat) : Nat := (v >>> 43) &&& 0x7FF

/-- `Evt21Word::y`: bits 42..32. -/
def evt21Y (v : Nat) : Nat := (v >>> 32) &&& 0x7FF

/-- `Evt21Word::valid_mask`: bits 31..0. -/
def evt21ValidMask (v : Nat) : Nat := v &&& 0xFFFFFFFF

/-- `Evt21Word::trigger_channel_id`: bits 44..40. -/
def evt21TriggerId (v : Nat) : Nat := (v >>> 40) &&& 0x1F

/-- `Evt21Word::trigger_value`: bit 32. -/
def evt21TriggerVal (v : Nat) : Nat := (v >>> 32) &&& 0x1

/-- Fuel-indexed helper for `lowBit`; the fuel only bounds the recursion
depth (one halving per step), it never runs out when it starts at the
argument itself (`lowBitAux_congr`). -/
def lowBitAux : Nat → Nat → Nat
  | 0, _ => 0
  | fuel + 1, m => if m % 2 = 1 then 0 else lowBitAux fuel (m / 2) + 1

/-- `u32::trailing_zeros` of a non-zero value: the index of the least
significant set bit. -/
def lowBit (m : Nat) : Nat := lowBitAux m m

/-- Fuel-indexed helper for `evt21MaskLoop`; the fuel only bounds the
number of loop iterations (the mask strictly decreases each time). -/
def evt21MaskLoopAux : Nat → Nat → List Nat
  | 0, _ => []
  | fuel + 1, mask =>
      if mask = 0 then [] else lowBit mask :: evt21MaskLoopAux fuel (mask &&& (mask - 1))

/-- The bit-offset sequence produced by the `while mask != 0` loop of the
`EVT_NEG | EVT_POS` arm: take `trailing_zeros`, clear the lowest set bit
with `mask & (mask - 1)`, repeat (see `evt21MaskLoop_eq` for the loop-shaped
unfolding). -/
def evt21MaskLoop (mask : Nat) : List Nat := evt21MaskLoopAux mask mask

/-- One word of the buffer-processing loop of `Evt21DecoderCore::next`,
with the time base already established (`time_high.unwrap()` is safe):
returns the updated `time_high` and the queued events in push order. -/
def evt21Step (timeHigh : Nat) (v : Nat) : Nat × List Event :=
  match evt21Type v with
  | 0x0 | 0x1 =>
      (timeHigh,
        (evt21MaskLoop (evt21ValidMask v)).map fun offset =>
          .CD (evt21X v + offset) (evt21Y v) (evt21Type v)
            (timeHigh ||| evt21TimeLow v))
  | 0x8 => (evt21TimeHigh v, [])
  | 0xA => (timeHigh, [.ExternalTrigger (evt21TriggerId v) (evt21TriggerVal v) 0])
  | _ => (timeHigh, [.Unknown])

/-! ## Header dispatch (`src/lib.rs`)

`parse_header`'s format-tag match and `RawFileReader::new`'s decoder
selection. -/

/-- `RawEventType` from `src/lib.rs`. -/
inductive RawEventType where
  | Evt2
  | Evt21
  | Evt3
  | Evt4
deriving DecidableEq, Repr

/-- The concrete decoder constructed by `RawFileReader::new`. -/
inductive DecoderKind where
  | evt2Dec
  | evt21Dec
  | evt3Dec
deriving DecidableEq, Repr

/-- The format-tag match of `parse_header` (`src/lib.rs`): `none`
corresponds to `Err(UnknownEventType)`. -/
def evtFormatOf : String → Option RawEventType
  | "2.0" | "EVT2" => some .Evt21
  | "2.1" | "EVT21" => some .Evt21
  | "3.0" | "EVT3" => some .Evt3
  | "4.0" | "EVT4" => some .Evt4
  | _ => none

/-- The decoder-selection match of `RawFileReader::new` (`src/lib.rs`):
`none` corresponds to `Err(DecoderNotImplemented)`. -/
def selectDecoder : RawEventType → Option DecoderKind
  | .Evt21 => some .evt21Dec
  | .Evt3 => some .evt3Dec
  | _ => none

/-- The decoder a format-tag string ends up with, end to end. -/
def decoderForTag (s : String) : Option DecoderKind :=
  (evtFormatOf s).bind selectDecoder

/-! ## Sanity checks

The literal end-to-end scenarios of the spec (section 8), evaluated on
the embedding. -/

-- Spec scenario S1 (EVT3 single pixel).
example : evt3Run (bytesOfWords [0x8001, 0x6010, 0x000A, 0x280F]) =
    some ({ time := 4112, timeBase := 4096, timeHighLoopNb := 0,
            polarity := 0, x := 0, y := 10 }, [.CD 15 10 1 4112]) := by decide

-- Spec scenario S2 (EVT3 vector-12 expansion).
example : (evt3Run (bytesOfWords [0x8001, 0x6000, 0x0005, 0x3802, 0x4005])).map
    Prod.snd = some [.CD 2 5 1 4096, .CD 4 5 1 4096] := by decide

-- Spec scenario S5 (EVT3 time-high wrap).
example : (evt3Run (bytesOfWords [0x8FFF, 0x8000, 0x6001, 0x0000, 0x2000])).map
    Prod.snd = some [.CD 0 0 0 16777217] := by decide

-- Spec scenario S3 (EVT2.1 valid-mask): EVT_POS(x=100, y=50, time_low=3,
-- valid=0b1011) with time_base = 0x2 << 6 = 0x80.
example :
    evt21Step (0x2 <<< 6)
      ((0x1 <<< 60) + (3 <<< 54) + (100 <<< 43) + (50 <<< 32) + 0b1011) =
    (0x80, [.CD 100 50 1 131, .CD 101 50 1 131, .CD 103 50 1 131]) := by decide

-- Spec scenario S6 (EVT3 drop-before-base): words before the first
-- EVT_TIME_HIGH are consumed by the scan and emit nothing.
example : (evt3Run (bytesOfWords [0x0003, 0x2804, 0x8001, 0x6010, 0x000A,
    0x280F])).map Prod.snd = some [.CD 15 10 1 4112] := by decide

example : evt2Decode none [0x80000005, 0xA0000701] = [.ExternalTrigger 7 1 0] := by
  decide

example : evt2Decode none [0x80000001, 0x400000, 0x0] =
    [.CD 0 0 0 65, .CD 0 0 0 64] := by decide

example : decoderForTag "EVT2" = some .evt21Dec := by decide

/-! ## Bit-level infrastructure

Facts about `extractBits`, `lowBit` and `evt21MaskLoop` needed to relate
the decoders' loops to ascending bit-index enumerations. -/

/-- A `len`-bit extraction is below `2 ^ len`. -/
theorem extractBits_lt (v start len : Nat) : extractBits v start len < 2 ^ len := by
  have h1 : v &&& (((1 <<< len) - 1) <<< start) ≤ ((1 <<< len) - 1) <<< start :=
    Nat.and_le_right
  have h2 : extractBits v start len ≤ (((1 <<< len) - 1) <<< start) >>> start := by
    unfold extractBits
    simp only [Nat.shiftRight_eq_div_pow]
    exact Nat.div_le_div_right h1
  have h3 : (((1 <<< len) - 1) <<< start) >>> start = (1 <<< len) - 1 := by
    simp only [Nat.shiftLeft_eq, Nat.shiftRight_eq_div_pow]
    exact Nat.mul_div_cancel _ (Nat.pos_pow_of_pos start (by omega))
  have h4 : (1 : Nat) <<< len = 2 ^ len := by
    simp [Nat.shiftLeft_eq]
  have h5 : 0 < 2 ^ len := Nat.pos_pow_of_pos len (by omega)
  omega

/-- The fuel of `lowBitAux` is irrelevant as long as it is at least the
argument. -/
theorem lowBitAux_congr : ∀ m f₁ f₂, m ≠ 0 → m ≤ f₁ → m ≤ f₂ →
    lowBitAux f₁ m = lowBitAux f₂ m := by
  intro m
  induction m using Nat.strong_induction_on with
  | _ m ih =>
    intro f₁ f₂ hm h₁ h₂
    match f₁, f₂, h₁, h₂ with
    | 0, _, h₁, _ => omega
    | _ + 1, 0, _, h₂ => omega
    | f₁ + 1, f₂ + 1, h₁, h₂ =>
      simp only [lowBitAux]
      by_cases hpar : m % 2 = 1
      · simp [hpar]
      · have hhalfne : m / 2 ≠ 0 := by omega
        have hlt : m / 2 < m := Nat.div_lt_self (Nat.pos_of_ne_zero hm) Nat.one_lt_two
        simp only [hpar, if_false]
        rw [ih (m / 2) hlt f₁ f₂ hhalfne (by omega) (by omega)]

/-- `lowBit` satisfies the recurrence of `trailing_zeros`. -/
theorem lowBit_eq (m : Nat) (hm : m ≠ 0) :
    lowBit m = if m % 2 = 1 then 0 else lowBit (m / 2) + 1 := by
  by_cases hpar : m % 2 = 1
  · match m, hm with
    | m + 1, _ => simp [lowBit, lowBitAux, hpar]
  · have hhalfne : m / 2 ≠ 0 := by omega
    simp only [hpar, if_false, lowBit]
    match m, hm with
    | m + 1, _ =>
      simp only [lowBitAux, hpar, if_false, Nat.add_right_cancel_iff]
      exact lowBitAux_congr _ _ _ hhalfne (by omega) (by omega)

/-- Clearing the lowest set bit strictly decreases a non-zero mask. -/
theorem and_pred_lt (mask : Nat) (hm : mask ≠ 0) : mask &&& (mask - 1) < mask :=
  Nat.lt_of_le_of_lt Nat.and_le_right (Nat.sub_lt (Nat.pos_of_ne_zero hm) Nat.one_pos)

/-- The fuel of `evt21MaskLoopAux` is irrelevant as long as it is at
least the mask. -/
theorem evt21MaskLoopAux_congr : ∀ mask f₁ f₂, mask ≤ f₁ → mask ≤ f₂ →
    evt21MaskLoopAux f₁ mask = evt21MaskLoopAux f₂ mask := by
  intro mask
  induction mask using Nat.strong_induction_on with
  | _ mask ih =>
    intro f₁ f₂ h₁ h₂
    by_cases hm : mask = 0
    · subst hm
      match f₁, f₂ with
      | 0, 0 => rfl
      | 0, _ + 1 => simp [evt21MaskLoopAux]
      | _ + 1, 0 => simp [evt21MaskLoopAux]
      | _ + 1, _ + 1 => simp [evt21MaskLoopAux]
    · match f₁, f₂, h₁, h₂ with
      | 0, _, h₁, _ => omega
      | _ + 1, 0, _, h₂ => omega
      | f₁ + 1, f₂ + 1, h₁, h₂ =>
        simp only [evt21MaskLoopAux, hm, if_false]
        have hlt := and_pred_lt mask hm
        rw [ih (mask &&& (mask - 1)) hlt f₁ f₂ (by omega) (by omega)]

/-- `evt21MaskLoop` satisfies exactly the recurrence of the Rust
`while mask != 0` loop, certifying the fuel-based encoding. -/
theorem evt21MaskLoop_eq (mask : Nat) :
    evt21MaskLoop mask =
      if mask = 0 then []
      else lowBit mask :: evt21MaskLoop (mask &&& (mask - 1)) := by
  by_cases hm : mask = 0
  · simp [hm, evt21MaskLoop, evt21MaskLoopAux]
  · simp only [hm, if_false, evt21MaskLoop]
    match mask, hm with
    | mask + 1, hm =>
      simp only [evt21MaskLoopAux, hm, if_false, List.cons.injEq, true_and]
      exact evt21MaskLoopAux_congr _ _ _
        (by have := and_pred_lt (mask + 1) hm; omega) (Nat.le_refl _)

/-- Bit 0 of `2 * a + c` for a one-bit `c`. -/
theorem testBit_two_mul_add_zero (a c : Nat) (hc : c < 2) :
    (2 * a + c).testBit 0 = decide (c = 1) := by
  rw [Nat.testBit_zero]
  have h : (2 * a + c) % 2 = c := by omega
  rw [h]

/-- Bit `i + 1` of `2 * a + c` for a one-bit `c`. -/
theorem testBit_two_mul_add_succ (a c i : Nat) (hc : c < 2) :
    (2 * a + c).testBit (i + 1) = a.testBit i := by
  rw [Nat.testBit_succ]
  congr 1
  omega

/-- `&&&` distributes over the binary digit decomposition. -/
theorem and_two_mul_add (a b c d : Nat) (hc : c < 2) (hd : d < 2) :
    (2 * a + c) &&& (2 * b + d) = 2 * (a &&& b) + (c &&& d) := by
  have hcd : c &&& d < 2 := Nat.lt_of_le_of_lt Nat.and_le_right hd
  apply Nat.eq_of_testBit_eq
  intro i
  cases i with
  | zero =>
    rw [Nat.testBit_and, testBit_two_mul_add_zero a c hc,
      testBit_two_mul_add_zero b d hd, testBit_two_mul_add_zero _ _ hcd]
    rcases (by omega : c = 0 ∨ c = 1) with h' | h' <;>
      rcases (by omega : d = 0 ∨ d = 1) with h'' | h'' <;> simp [h', h'']
  | succ i =>
    rw [Nat.testBit_and, testBit_two_mul_add_succ a c i hc,
      testBit_two_mul_add_succ b d i hd, testBit_two_mul_add_succ _ _ i hcd,
      Nat.testBit_and]

/-- `mask &= mask - 1` commutes with doubling. -/
theorem and_pred_two_mul (q : Nat) (hq : q ≠ 0) :
    (2 * q) &&& (2 * q - 1) = 2 * (q &&& (q - 1)) := by
  have h1 : 2 * q - 1 = 2 * (q - 1) + 1 := by omega
  have h2 := and_two_mul_add q (q - 1) 0 1 (by omega) (by omega)
  simpa [h1] using h2

/-- `(2q + 1) &&& 2q = 2q`: clearing the lowest bit of an odd number. -/
theorem odd_and_even (q : Nat) : (2 * q + 1) &&& (2 * q) = 2 * q := by
  have h := and_two_mul_add q q 1 0 (by omega) (by omega)
  simpa [Nat.and_self] using h

/-- `trailing_zeros` of an odd number is 0. -/
theorem lowBit_odd (m : Nat) (h : m % 2 = 1) : lowBit m = 0 := by
  rw [lowBit_eq m (by omega)]
  simp [h]

/-- `trailing_zeros` of `2 * q` is one more than that of `q`. -/
theorem lowBit_two_mul (q : Nat) (hq : q ≠ 0) : lowBit (2 * q) = lowBit q + 1 := by
  rw [lowBit_eq (2 * q) (by omega)]
  have h1 : 2 * q % 2 = 0 := by omega
  have h2 : 2 * q / 2 = q := by omega
  simp [h1, h2]

/-- Doubling the mask shifts every emitted offset up by one. -/
theorem evt21MaskLoop_two_mul : ∀ q,
    evt21MaskLoop (2 * q) = (evt21MaskLoop q).map (· + 1) := by
  intro q
  induction q using Nat.strong_induction_on with
  | _ q ih =>
    by_cases hq : q = 0
    · subst hq; rfl
    · rw [evt21MaskLoop_eq (2 * q), if_neg (by omega : ¬(2 * q = 0)),
        lowBit_two_mul q hq, and_pred_two_mul q hq,
        ih (q &&& (q - 1)) (and_pred_lt q hq), evt21MaskLoop_eq q, if_neg hq]
      simp

/-- An odd mask first emits offset 0, then the doubled tail. -/
theorem evt21MaskLoop_two_mul_add_one (q : Nat) :
    evt21MaskLoop (2 * q + 1) = 0 :: (evt21MaskLoop q).map (· + 1) := by
  rw [evt21MaskLoop_eq (2 * q + 1), if_neg (by omega : ¬(2 * q + 1 = 0)),
    lowBit_odd (2 * q + 1) (by omega),
    (by omega : 2 * q + 1 - 1 = 2 * q), odd_and_even q, evt21MaskLoop_two_mul q]

/-- The `trailing_zeros` / clear-lowest-bit loop enumerates exactly the
set bit positions of the mask in ascending order. -/
theorem evt21MaskLoop_eq_filter : ∀ n m, m < 2 ^ n →
    evt21MaskLoop m = (List.range n).filter (fun k => m.testBit k) := by
  intro n
  induction n with
  | zero =>
    intro m hm
    interval_cases m
    rfl
  | succ n ih =>
    intro m hm
    have hq : m / 2 < 2 ^ n := by
      have := Nat.pow_succ 2 n ▸ hm
      omega
    have hsplit : m = 2 * (m / 2) + m % 2 := by omega
    rw [List.range_succ_eq_map, List.filter_cons, List.filter_map]
    have htail :
        List.filter ((fun k => m.testBit k) ∘ Nat.succ) (List.range n) =
        List.filter (fun k => (m / 2).testBit k) (List.range n) := by
      apply List.filter_congr
      intro k _
      simp [Function.comp, Nat.testBit_succ]
    by_cases hpar : m % 2 = 1
    · have hbit : m.testBit 0 = true := by
        rw [Nat.testBit_zero]; simp [hpar]
      rw [hbit]
      simp only [if_true]
      rw [htail, ← ih (m / 2) hq]
      conv_lhs => rw [hsplit, hpar]
      rw [evt21MaskLoop_two_mul_add_one]
      try simp [Nat.succ_eq_add_one]
    · have hpar0 : m % 2 = 0 := by omega
      have hbit : m.testBit 0 = false := by
        rw [Nat.testBit_zero]; simp [hpar0]
      rw [hbit]
      simp only [Bool.false_eq_true, if_false]
      rw [htail, ← ih (m / 2) hq]
      conv_lhs => rw [hsplit, hpar0, Nat.add_zero]
      rw [evt21MaskLoop_two_mul]
      try simp [Nat.succ_eq_add_one]

/-- The `handle_vect!` loop emits exactly the set bit positions of the
valid mask, in ascending order, offset by the base `i`. -/
theorem vectLoop_eq_filter (y p t : Nat) : ∀ (n i valid : Nat),
    vectLoop y p t n i valid =
      ((List.range n).filter (fun j => valid.testBit j)).map
        (fun j => Event.CD (i + j) y p t) := by
  intro n
  induction n with
  | zero => intro i valid; rfl
  | succ n ih =>
    intro i valid
    rw [List.range_succ_eq_map, List.filter_cons, List.filter_map]
    have htail :
        List.filter ((fun j => valid.testBit j) ∘ Nat.succ) (List.range n) =
        List.filter (fun j => (valid / 2).testBit j) (List.range n) := by
      apply List.filter_congr
      intro k _
      simp [Function.comp, Nat.testBit_succ]
    have hshift : valid >>> 1 = valid / 2 := by
      rw [Nat.shiftRight_eq_div_pow, Nat.pow_one]
    have hmap :
        (fun j => Event.CD (i + j) y p t) ∘ Nat.succ =
        (fun k => Event.CD (i + 1 + k) y p t) := by
      funext k
      simp only [Function.comp]
      congr 1
      omega
    simp only [vectLoop, hshift, ih (i + 1) (valid / 2), htail]
    rw [Nat.and_one_is_mod]
    by_cases hpar : valid % 2 = 1
    · have hbit : valid.testBit 0 = true := by
        rw [Nat.testBit_zero]; simp [hpar]
      simp [hpar, hbit, List.map_map, hmap]
    · have hbit : valid.testBit 0 = false := by
        rw [Nat.testBit_zero]; simp [hpar]
      simp [hpar, hbit, List.map_map, hmap]

theorem timesOf_nil : timesOf [] = [] := rfl

theorem timesOf_cons_cd (x y p t : Nat) (l : List Event) :
    timesOf (Event.CD x y p t :: l) = t :: timesOf l := rfl

theorem timesOf_cons_trigger (id p t : Nat) (l : List Event) :
    timesOf (Event.ExternalTrigger id p t :: l) = t :: timesOf l := rfl

theorem timesOf_cons_unknown (l : List Event) :
    timesOf (Event.Unknown :: l) = timesOf l := rfl

/-- A CD word's low-timestamp field is a 6-bit extraction, hence `< 64`. -/
theorem evt2_cd_ts_lt {v ts x y : Nat}
    (h : evt2FromWord v = .CDon ts x y ∨ evt2FromWord v = .CDoff ts x y) :
    ts < 64 := by
  have hlt := extractBits_lt v 22 6
  norm_num at hlt
  rcases h with h | h <;> unfold evt2FromWord at h <;> split at h <;>
    first
      | (injection h with h1 h2 h3; omega)
      | injection h

/-- The reconstructed EVT2 timestamp `time_high | time_low` is plain
addition: the shifted high part has its low 6 bits clear. -/
theorem evt2_or_eq_add (h ts : Nat) (hts : ts < 64) :
    h <<< 6 ||| ts = h <<< 6 + ts := by
  rw [Nat.shiftLeft_eq, Nat.mul_comm]
  exact (Nat.mul_add_lt_is_or (by norm_num; omega) h).symm

set_option maxRecDepth 10000 in
/-- Monotonicity of the EVT2 decoder on well-formed streams, with the
time base already established: every emitted timestamp is at least
`h << 6 + lastLow` and the emitted timestamps form a `≤`-chain. -/
theorem evt2_mono_some : ∀ (vs : List Nat) (h ll : Nat), ll < 64 →
    evt2WF (some h) ll vs = true →
    List.Chain' (· ≤ ·)
      ((h <<< 6 + ll) :: timesOf (evt2Decode (some (h <<< 6)) vs)) := by
  intro vs
  induction vs with
  | nil =>
    intro h ll hll hwf
    simp [evt2Decode, timesOf]
  | cons v vs ih =>
    intro h ll hll hwf
    cases hw : evt2FromWord v with
    | CDon ts x y =>
      have hts : ts < 64 := evt2_cd_ts_lt (Or.inl hw)
      simp only [evt2WF, hw, Option.isNone_some, Bool.false_or,
        Bool.and_eq_true, decide_eq_true_eq] at hwf
      obtain ⟨hle, hwf'⟩ := hwf
      simp only [evt2Decode, evt2Step, hw, Option.map_some', Option.toList_some,
        List.cons_append, List.nil_append, timesOf_cons_cd]
      rw [evt2_or_eq_add h ts hts]
      exact List.Chain'.cons (by omega) (ih h ts hts hwf')
    | CDoff ts x y =>
      have hts : ts < 64 := evt2_cd_ts_lt (Or.inr hw)
      simp only [evt2WF, hw, Option.isNone_some, Bool.false_or,
        Bool.and_eq_true, decide_eq_true_eq] at hwf
      obtain ⟨hle, hwf'⟩ := hwf
      simp only [evt2Decode, evt2Step, hw, Option.map_some', Option.toList_some,
        List.cons_append, List.nil_append, timesOf_cons_cd]
      rw [evt2_or_eq_add h ts hts]
      exact List.Chain'.cons (by omega) (ih h ts hts hwf')
    | EvtTimeHigh hh =>
      simp only [evt2WF, hw, Bool.and_eq_true, decide_eq_true_eq] at hwf
      obtain ⟨hlt, hwf'⟩ := hwf
      simp only [evt2Decode, evt2Step, hw, Option.toList_none, List.nil_append]
      have IH := ih hh 0 (by omega) hwf'
      refine List.Chain'.cons' IH.tail ?_
      intro y hy
      have h1 := IH.rel_head? hy
      have e1 : h <<< 6 = h * 64 := by rw [Nat.shiftLeft_eq]
      have e2 : hh <<< 6 = hh * 64 := by rw [Nat.shiftLeft_eq]
      rw [e2] at h1
      rw [e1]
      omega
    | ExtTrigger ts id pol =>
      simp [evt2WF, hw] at hwf
    | Unknown =>
      simp only [evt2WF, hw] at hwf
      simp only [evt2Decode, evt2Step, hw, Option.toList_some,
        List.cons_append, List.nil_append, timesOf_cons_unknown]
      exact ih h ll hll hwf

set_option maxRecDepth 10000 in
/-- Monotonicity of the EVT2 decoder on well-formed streams from the
fresh state (no time base yet): CD words are dropped until the first
`EVT_TIME_HIGH`, after which `evt2_mono_some` applies. -/
theorem evt2_mono_none : ∀ (vs : List Nat) (ll : Nat),
    evt2WF none ll vs = true →
    List.Chain' (· ≤ ·) (timesOf (evt2Decode none vs)) := by
  intro vs
  induction vs with
  | nil =>
    intro ll hwf
    simp [evt2Decode, timesOf]
  | cons v vs ih =>
    intro ll hwf
    cases hw : evt2FromWord v with
    | CDon ts x y =>
      simp only [evt2WF, hw, Option.isNone_none, Bool.true_or,
        Bool.true_and] at hwf
      simp only [evt2Decode, evt2Step, hw, Option.map_none', Option.toList_none,
        List.nil_append]
      exact ih ts hwf
    | CDoff ts x y =>
      simp only [evt2WF, hw, Option.isNone_none, Bool.true_or,
        Bool.true_and] at hwf
      simp only [evt2Decode, evt2Step, hw, Option.map_none', Option.toList_none,
        List.nil_append]
      exact ih ts hwf
    | EvtTimeHigh hh =>
      simp only [evt2WF, hw, Bool.true_and] at hwf
      simp only [evt2Decode, evt2Step, hw, Option.toList_none, List.nil_append]
      exact (evt2_mono_some vs hh 0 (by omega) hwf).tail
    | ExtTrigger ts id pol =>
      simp [evt2WF, hw] at hwf
    | Unknown =>
      simp only [evt2WF, hw] at hwf
      simp only [evt2Decode, evt2Step, hw, Option.toList_some,
        List.cons_append, List.nil_append, timesOf_cons_unknown]
      exact ih ll hwf

/-! ## Claim theorems -/

/-- Claim C1 (counterexample): the EVT2 stream `EVT_TIME_HIGH(1)`,
`CD_OFF(time_low=1)`, `CD_OFF(time_low=0)` — all CD events emitted after
time-base initialization — produces the consecutive timestamps 65 then
64, which decrease. -/
theorem c1_monotonic_counterexample :
    timesOf (evt2Decode none [0x80000001, 0x400000, 0x0]) = [65, 64] ∧
    ¬ (65 : Nat) ≤ 64 := by decide

/-- Claim C1 (amended): the output timestamps of the EVT2 decoder form a
non-decreasing chain provided the stream is well formed (`evt2WF`):
`EVT_TIME_HIGH` fields strictly increase, CD low-timestamp fields are
non-decreasing between consecutive `EVT_TIME_HIGH` words, and no
`EXT_TRIGGER` words occur (those are emitted with timestamp 0 by the
code, see C8).  For arbitrary streams, monotonicity does not hold. -/
theorem c1_evt2_monotonic_amended (vs : List Nat)
    (hwf : evt2WF none 0 vs = true) :
    List.Chain' (· ≤ ·) (timesOf (evt2Decode none vs)) :=
  evt2_mono_none vs 0 hwf

/-- Claim C1 (witness for the amended theorem): a well-formed stream
with two time bases and two CD events, timestamps 65 then 128. -/
theorem c1_evt2_monotonic_amended_witness :
    evt2WF none 0 [0x80000001, 0x400000, 0x80000002, 0x0] = true ∧
    List.Chain' (· ≤ ·)
      (timesOf (evt2Decode none [0x80000001, 0x400000, 0x80000002, 0x0])) :=
  ⟨by decide, c1_evt2_monotonic_amended [0x80000001, 0x400000, 0x80000002, 0x0]
    (by decide)⟩

/-- Claim C3: with the time base established, a `VECT_BASE_X` word `w1`
followed by a `VECT_12` (N = 12) or `VECT_8` (N = 8) word `w2` emits
exactly `CD(x0 + i, last_y, pol, time)` for every bit index `i < N` set
in the mask, in ascending `i`; and `vect_x` advances to `x0 + N`
regardless of the mask, so a following `VECT_N` without a new
`VECT_BASE_X` continues at base `x0 + N`. -/
theorem c3_vector_expansion (s : Evt3State) (w1 w2 N : Nat)
    (h1 : evt3Type w1 = 0x3)
    (h2 : evt3Type w2 = 0x4 ∧ N = 12 ∨ evt3Type w2 = 0x5 ∧ N = 8) :
    evt3Process s [w1, w2] =
      ({ s with polarity := evt3Pol w1, x := evt3XY w1 + N },
       ((List.range N).filter (fun i => (evt3Time w2).testBit i)).map
         (fun i => Event.CD (evt3XY w1 + i) s.y (evt3Pol w1) s.time)) := by
  have hx : evt3XY w1 ≤ 0x7FF := Nat.and_le_right
  have hmod : (evt3XY w1 + N) % 65536 = evt3XY w1 + N := by
    apply Nat.mod_eq_of_lt
    rcases h2 with ⟨_, hN⟩ | ⟨_, hN⟩ <;> omega
  rcases h2 with ⟨h2, hN⟩ | ⟨h2, hN⟩ <;> subst hN <;>
    simp [evt3Process, evt3StepScalar, h1, h2, handleVect, hmod,
      Nat.add_sub_cancel_left, vectLoop_eq_filter]

/-- Claim C3 (witness): spec scenario S2's words `VECT_BASE_X(x=2,pol=1)`
then `VECT_12(mask=0b101)` from a state with `y = 5`, `time = 4096`. -/
theorem c3_vector_expansion_witness :
    evt3Type 0x3802 = 0x3 ∧ (evt3Type 0x4005 = 0x4 ∧ 12 = 12 ∨
      evt3Type 0x4005 = 0x5 ∧ 12 = 8) ∧
    evt3Process { evt3Init 4096 with y := 5, time := 4096 } [0x3802, 0x4005] =
      ({ evt3Init 4096 with y := 5, time := 4096, polarity := 1, x := 2 + 12 },
       ((List.range 12).filter (fun i => (evt3Time 0x4005).testBit i)).map
         (fun i => Event.CD (2 + i) 5 1 4096)) :=
  ⟨by decide, Or.inl ⟨by decide, rfl⟩,
    c3_vector_expansion { evt3Init 4096 with y := 5, time := 4096 }
      0x3802 0x4005 12 (by decide) (Or.inl ⟨by decide, rfl⟩)⟩

set_option maxRecDepth 10000 in
/-- Claim C4: with the time base established, an `EVT_POS` word emits
exactly `CD(X + k, Y, 1, time_base | L)` for each set bit `k` of the
32-bit valid mask, in ascending `k` order, and `EVT_NEG` emits the same
events with `p = 0` (the state is unchanged). -/
theorem c4_mask_enumeration (th v p : Nat)
    (hv : evt21Type v = 0x1 ∧ p = 1 ∨ evt21Type v = 0x0 ∧ p = 0) :
    evt21Step th v =
      (th, ((List.range 32).filter (fun k => (evt21ValidMask v).testBit k)).map
        (fun k => Event.CD (evt21X v + k) (evt21Y v) p
          (th ||| evt21TimeLow v))) := by
  have hmask : evt21ValidMask v < 2 ^ 32 := by
    show v &&& 0xFFFFFFFF < 2 ^ 32
    have h := Nat.and_le_right (n := v) (m := 0xFFFFFFFF)
    omega
  have hloop := evt21MaskLoop_eq_filter 32 (evt21ValidMask v) hmask
  rcases hv with ⟨hv, hp⟩ | ⟨hv, hp⟩ <;> subst hp <;>
    simp [evt21Step, hv, hloop]

/-- Claim C4 (witness): spec scenario S3's `EVT_POS` word
(x=100, y=50, time_low=3, valid=0b1011) with time base `0x80`. -/
theorem c4_mask_enumeration_witness :
    (evt21Type ((1 <<< 60) + (3 <<< 54) + (100 <<< 43) + (50 <<< 32) + 0b1011)
        = 0x1 ∧ (1 : Nat) = 1 ∨
      evt21Type ((1 <<< 60) + (3 <<< 54) + (100 <<< 43) + (50 <<< 32) + 0b1011)
        = 0x0 ∧ (1 : Nat) = 0) ∧
    evt21Step 0x80 ((1 <<< 60) + (3 <<< 54) + (100 <<< 43) + (50 <<< 32) + 0b1011) =
      (0x80, ((List.range 32).filter
          (fun k => (evt21ValidMask ((1 <<< 60) + (3 <<< 54) + (100 <<< 43) +
            (50 <<< 32) + 0b1011)).testBit k)).map
        (fun k => Event.CD
          (evt21X ((1 <<< 60) + (3 <<< 54) + (100 <<< 43) + (50 <<< 32) + 0b1011) + k)
          (evt21Y ((1 <<< 60) + (3 <<< 54) + (100 <<< 43) + (50 <<< 32) + 0b1011)) 1
          (0x80 ||| evt21TimeLow ((1 <<< 60) + (3 <<< 54) + (100 <<< 43) +
            (50 <<< 32) + 0b1011)))) :=
  ⟨Or.inl ⟨by decide, rfl⟩,
    c4_mask_enumeration 0x80
      ((1 <<< 60) + (3 <<< 54) + (100 <<< 43) + (50 <<< 32) + 0b1011) 1
      (Or.inl ⟨by decide, rfl⟩)⟩

/-- Claim C2 (counterexample): on the stream `EVT_TIME_HIGH(0xFFF)`,
`EVT_TIME_HIGH(0x000)`, the two successive `time_base` values are
16773120 and 16777216; their difference is 4096, NOT
`TIME_LOOP_DURATION_US` as the claim states. -/
theorem c2_wrap_difference_counterexample :
    evt3ScanBytes (bytesOfWords [0x8FFF, 0x8000]) = .found 16773120 [0x00, 0x80] ∧
    evt3Run (bytesOfWords [0x8FFF, 0x8000]) =
      some ({ time := 16773120, timeBase := 16777216, timeHighLoopNb := 1,
              polarity := 0, x := 0, y := 0 }, []) ∧
    16777216 - 16773120 ≠ TIME_LOOP_DURATION_US := by decide

/-- Claim C2 (amended): on `EVT_TIME_HIGH(0xFFF)` then
`EVT_TIME_HIGH(0x000)`, the committed bases are `0xFFF << 12 = 16773120`
and `16777216`; their difference is `1 << 12 = 4096`, the second base
exceeds the naive candidate `0x000 << 12 = 0` by exactly
`TIME_LOOP_DURATION_US`, and `time_high_loop_nb` increments from 0 to 1
(the wrap is detected because the old base exceeds the candidate by at
least `MAX_TIMESTAMP_BASE - LOOP_THRESHOLD`). -/
theorem c2_wrap_amended :
    evt3ScanBytes (bytesOfWords [0x8FFF, 0x8000]) =
      .found (0xFFF <<< 12) [0x00, 0x80] ∧
    evt3Run (bytesOfWords [0x8FFF, 0x8000]) =
      some ({ time := 16773120, timeBase := 16777216, timeHighLoopNb := 1,
              polarity := 0, x := 0, y := 0 }, []) ∧
    16777216 - (0xFFF <<< 12) = 1 <<< 12 ∧
    16777216 = (0x000 <<< 12) + TIME_LOOP_DURATION_US ∧
    (0xFFF <<< 12) - (0x000 <<< 12) ≥ MAX_TIMESTAMP_BASE - LOOP_THRESHOLD := by decide

/-- Claim C5: the decoder is NOT infallible once constructed: on a
stream that reaches end of input before the first `EVT_TIME_HIGH` word,
the EVT3 time-base scan hits `read_exact(..).unwrap()` on `Err` and
panics instead of returning `None` (modelled by `ScanResult.panic`),
both on an empty stream and on a stream with no `EVT_TIME_HIGH`. -/
theorem c5_scan_eof_panics :
    evt3ScanBytes [] = .panic ∧
    evt3Run [] = none ∧
    evt3ScanBytes (bytesOfWords [0x2000]) = .panic ∧
    evt3Run (bytesOfWords [0x2000]) = none := by decide

/-- Claim C6 (counterexample): on `EVT_TIME_HIGH(1)`, `EVT_TIME_HIGH(2)`,
`EVT_ADDR_Y(0)`, `EVT_ADDR_X(0)`, the CD event emitted after the second
`EVT_TIME_HIGH` (and before any `EVT_TIME_LOW`) carries `t = 4096`, the
base committed by the FIRST time-high, not the newly committed base
8192 — the claim says it should carry 8192. -/
theorem c6_time_after_time_high_counterexample :
    evt3Run (bytesOfWords [0x8001, 0x8002, 0x0000, 0x2000]) =
      some ({ time := 4096, timeBase := 8192, timeHighLoopNb := 0,
              polarity := 0, x := 0, y := 0 }, [.CD 0 0 0 4096]) ∧
    (4096 : Nat) ≠ 8192 := by decide

/-- Claim C6 (amended): processing an `EVT_TIME_HIGH` word sets the
current `time` to the PREVIOUSLY committed `time_base` (the value held
before this word), so a CD event emitted between an `EVT_TIME_HIGH` and
the next `EVT_TIME_LOW` carries the previous base, not the new one (and
the initial scan leaves `time = 0`). -/
theorem c6_time_high_sets_time_to_previous_base (s : Evt3State) (v w : Nat)
    (hv : evt3Type v = 0x8) (hw : evt3Type w = 0x2) :
    ((evt3StepScalar s v).1).time = s.timeBase ∧
    (evt3Process s [v, w]).2 =
      [Event.CD (evt3XY w) s.y (evt3Pol w) s.timeBase] := by
  constructor
  · simp only [evt3StepScalar, hv]
    split <;> rfl
  · simp only [evt3Process, evt3StepScalar, hv, hw]
    split <;> simp

/-- Claim C6 (witness for the amended theorem). -/
theorem c6_time_high_sets_time_to_previous_base_witness :
    evt3Type 0x8002 = 0x8 ∧ evt3Type 0x2000 = 0x2 ∧
    (((evt3StepScalar (evt3Init 4096) 0x8002).1).time = 4096 ∧
     (evt3Process (evt3Init 4096) [0x8002, 0x2000]).2 = [Event.CD 0 0 0 4096]) :=
  ⟨by decide, by decide,
    c6_time_high_sets_time_to_previous_base (evt3Init 4096) 0x8002 0x2000
      (by decide) (by decide)⟩

/-- Claim C7 (counterexample): the format tags `"2.0"` and `"EVT2"` are
mapped to `RawEventType::Evt21` — the EVT2.1 decoder — not to the EVT2
decoder as the claim states. -/
theorem c7_tag_mapping_counterexample :
    evtFormatOf "EVT2" = some .Evt21 ∧
    evtFormatOf "2.0" = some .Evt21 ∧
    RawEventType.Evt21 ≠ RawEventType.Evt2 ∧
    decoderForTag "EVT2" = some .evt21Dec ∧
    DecoderKind.evt21Dec ≠ DecoderKind.evt2Dec := by decide

/-- Claim C7 (amended): the dispatcher maps `"2.0"` and `"EVT2"` to the
EVT2.1 decoder (exactly like `"2.1"`/`"EVT21"`), `"3.0"`/`"EVT3"` to the
EVT3 decoder, and `"4.0"`/`"EVT4"` to `RawEventType::Evt4`, which is
recognized but reported as unimplemented (no decoder is constructed). -/
theorem c7_tag_mapping_amended :
    evtFormatOf "2.0" = some .Evt21 ∧ evtFormatOf "EVT2" = some .Evt21 ∧
    evtFormatOf "2.1" = some .Evt21 ∧ evtFormatOf "EVT21" = some .Evt21 ∧
    evtFormatOf "3.0" = some .Evt3 ∧ evtFormatOf "EVT3" = some .Evt3 ∧
    evtFormatOf "4.0" = some .Evt4 ∧ evtFormatOf "EVT4" = some .Evt4 ∧
    evtFormatOf "X" = none ∧
    selectDecoder .Evt21 = some .evt21Dec ∧
    selectDecoder .Evt3 = some .evt3Dec ∧
    selectDecoder .Evt4 = none ∧ selectDecoder .Evt2 = none ∧
    decoderForTag "2.0" = some .evt21Dec ∧
    decoderForTag "EVT2" = some .evt21Dec ∧
    decoderForTag "4.0" = none := by decide

/-- Claim C8: on `EVT_TIME_HIGH(5)` then `EXT_TRIGGER(id=7, pol=1)`, the
EVT2 decoder emits the trigger with timestamp 0 (the raw word's
timestamp field is discarded — `timestamp: _` with a TODO in the source)
instead of the current `time_base | 0 = 5 << 6 = 320` the claim (and the
spec's §4.3) require. -/
theorem c8_evt2_trigger_timestamp_bug :
    evt2Decode none [0x80000005, 0xA0000701] = [.ExternalTrigger 7 1 0] ∧
    (5 : Nat) <<< 6 ||| 0 = 320 ∧
    (0 : Nat) ≠ 320 := by decide

/-- Claim C9: for the EVT2 `CD_ON` word `0x10000800` (type code 0x1,
bits 21..11 holding x = 1), the decoder extracts `x` from bits 31..21
(`#[21,11]`), yielding 128 (it even captures the discriminant bits),
while the spec's bit range 21..11 — the one `CD_OFF` uses (`#[11,11]`) —
yields 1. -/
theorem c9_evt2_cdon_x_bit_range_bug :
    evt2FromWord 0x10000800 = .CDon 0 128 0 ∧
    extractBits 0x10000800 11 11 = 1 ∧
    evt2FromWord 0x00000800 = .CDoff 0 1 0 ∧
    (128 : Nat) ≠ 1 := by decide

/-- Claim C10: the scalar and SIMD paths of the EVT3 decoder disagree on
the `EXT_TRIGGER` word `0xA701` (id = 7, polarity = 1): the scalar path
emits `ExternalTrigger { id: 7, p: 1 }` while the SIMD path emits the
placeholder `ExternalTrigger { id: 0, p: 0 }` (the `FIXME` lines), so
the decoded events depend on how the stream is chunked by reads. -/
theorem c10_simd_scalar_trigger_divergence :
    evt3StepScalar (evt3Init 0) 0xA701 =
      (evt3Init 0, [.ExternalTrigger 7 1 0]) ∧
    evt3StepSimd (evt3Init 0) 0xA701 =
      (evt3Init 0, [.ExternalTrigger 0 0 0]) ∧
    ([Event.ExternalTrigger 7 1 0] : List Event) ≠ [.ExternalTrigger 0 0 0] := by decide

end Libreeb
